import Mathlib

/-!
Verification development for the `zustandsyncstore` synchronization engine
(`src/SyncStore.tsx`).

The engine is embedded shallowly:
* JavaScript runtime values that can appear in a props payload are modelled
  by `Value`; object identity of non-element reference values is carried as
  a numeric id (`Value.vRef`), and a React element is `Value.vElem ty key content`
  where `ty` is the identity of its `type`, `key` its React key
  (string or null), and `content` stands for all of its other internal
  content (props, children), which `shallowChanged` never inspects.
* A payload (a plain JS object used as a field bag) is an ordered
  association list `Payload`; `lookup`/`getVal` model JS property access
  (`getVal` yields `undefined` for a missing key, as JS does).
* `shallowChanged` is a direct transcription of the `shallowChanged`
  function (SyncStore.tsx lines 97-115); `entryChanged` is its loop body.
* `deleteKeys` and `filterFirstSync` transcribe the write-once filtering in
  `Hook` (lines 164-172): `{...others}` followed by `delete filteredProps[key]`
  for each configured key, applied only when `firstSyncProps` is set
  (JS truthiness: an empty array still enables the branch) and
  `syncedProps.current` is true.
* `mergePayload` models the JS object spread `{...state, ...props}` used by
  `$sync` (line 219): keys of `state` keep their position, values overridden
  by `props` where shared, and new keys of `props` are appended in order.
* `hookCycle` models one host evaluation cycle of `Hook`
  (render + layout effect, lines 156-182) acting on the mutable refs
  (`syncedProps`, `prevPropsRef`) and the store; `mergeCount` instruments
  the number of `$sync` calls performed, which the source performs at
  line 179.
* `derivedCycle` models one evaluation cycle of `UseValueHook`
  (lines 127-145) given the value returned by the caller-supplied
  `useValue` stage, modelled as the JS value `JSVal`.
* `useStoreRead` models `useStoreInternal` / `useStore` (lines 62-95):
  a read throws `Missing StoreProvider` outside a provider context and
  otherwise applies the selector (the identity when none is given) to the
  current internal state.
* `storeInit` models the deduplicated store initializer of `StoreProvider`
  (lines 215-220): the initial-factory result, spread-overlaid with the
  sync props, with the `$sync` entry point added; `providerRender` models
  the `if (!storeRef.current)` guard (lines 212-233).
-/

/-- A JavaScript runtime value as far as the engine can distinguish values:
primitives by value, plain reference values by identity, React elements by
their `type` identity, `key`, and an opaque residue for the rest of their
content. -/
inductive Value where
  | vUndefined : Value
  | vNull : Value
  | vNat : Nat → Value
  | vStr : String → Value
  | vBool : Bool → Value
  | vRef : Nat → Value
  | vElem : Nat → Option String → Nat → Value
  | vSync : Value
  deriving DecidableEq, Repr

/-- A props payload: an ordered field bag, as a JS object is. -/
abbrev Payload := List (String × Value)

/-- JS property read returning `Option`: `some v` when the key is present. -/
def lookup (p : Payload) (k : String) : Option Value :=
  (p.find? fun kv => kv.1 == k).map Prod.snd

/-- The ordered key list of a payload (`Object.keys`). -/
def keys (p : Payload) : List String :=
  p.map Prod.fst

/-- JS property read: `p[k]`, which is `undefined` when the key is absent. -/
def getVal (p : Payload) (k : String) : Value :=
  match lookup p k with
  | some v => v
  | none => Value.vUndefined

/-- `React.isValidElement`. -/
def isValidElement : Value → Bool
  | Value.vElem _ _ _ => true
  | _ => false

/-- `Object.is` on modelled values: value equality on primitives, identity
on reference values. -/
def valueIs (a b : Value) : Bool :=
  decide (a = b)

/-- The body of the comparison loop in `shallowChanged`
(SyncStore.tsx lines 104-112), for one key: `prevVal` from the baseline,
`nextVal` from the candidate payload; `true` means this entry differs. -/
def entryChanged (prevVal nextVal : Value) : Bool :=
  if isValidElement nextVal || isValidElement prevVal then
    if !isValidElement nextVal || !isValidElement prevVal then
      true
    else
      match nextVal, prevVal with
      | Value.vElem nt nk _, Value.vElem pt pk _ => nt != pt || nk != pk
      | _, _ => true
  else
    !valueIs prevVal nextVal

/-- `shallowChanged` (SyncStore.tsx lines 97-115): `true` when the candidate
payload `next` is judged different from the baseline `prev`
(`none` models the JS `null` baseline). -/
def shallowChanged (prev : Option Payload) (next : Payload) : Bool :=
  match prev with
  | none => true
  | some p =>
    if (keys next).length ≠ (keys p).length then
      true
    else
      (keys next).any fun k => entryChanged (getVal p k) (getVal next k)

/-- The `for (const key of firstSyncProps) delete filteredProps[key]` loop
(SyncStore.tsx lines 168-170), acting on a copy of the payload. -/
def deleteKeys (p : Payload) (ks : List String) : Payload :=
  ks.foldl (fun acc k => acc.filter fun kv => !(kv.1 == k)) p

/-- The write-once gate of `Hook` (SyncStore.tsx lines 164-172): compute
`propsToSync` from the raw props. `none` models an `undefined`
`firstSyncProps`; note that in JS an empty array is truthy, so
`some []` still takes the filtering branch (which then deletes nothing). -/
def filterFirstSync (firstSyncProps : Option (List String)) (alreadySynced : Bool)
    (others : Payload) : Payload :=
  match firstSyncProps with
  | none => others
  | some ws => if alreadySynced then deleteKeys others ws else others

/-- JS object spread `{...state, ...props}` (SyncStore.tsx line 219): keys of
`state` keep their position with values overridden by `props` where shared;
keys only in `props` are appended in order. -/
def mergePayload (state props : Payload) : Payload :=
  (state.map fun kv =>
    match lookup props kv.1 with
    | some v => (kv.1, v)
    | none => kv)
  ++ props.filter fun kv => !(keys state).contains kv.1

/-- The mutable state of one `Hook` instance together with its store:
`syncedProps` and `prevProps` are the two refs (lines 156-157), `store` the
zustand store contents, and `mergeCount` instruments how many `$sync` merge
calls have been performed (line 179). -/
structure PipelineState where
  syncedProps : Bool
  prevProps : Option Payload
  store : Payload
  mergeCount : Nat
  deriving DecidableEq, Repr

/-- The pipeline state of a freshly created store holding `store0`. -/
def initPipeline (store0 : Payload) : PipelineState :=
  { syncedProps := false
    prevProps := none
    store := store0
    mergeCount := 0 }

/-- One host evaluation cycle of `Hook` (SyncStore.tsx lines 156-182):
compute `propsToSync` through the write-once gate, run the change detector
against the baseline, and if changed record the new baseline, `$sync` the
filtered payload into the store, and set the synced flag. -/
def hookCycle (firstSyncProps : Option (List String)) (st : PipelineState)
    (raw : Payload) : PipelineState :=
  let propsToSync := filterFirstSync firstSyncProps st.syncedProps raw
  if shallowChanged st.prevProps propsToSync then
    { syncedProps := true
      prevProps := some propsToSync
      store := mergePayload st.store propsToSync
      mergeCount := st.mergeCount + 1 }
  else
    st

/-- A sequence of host evaluation cycles, one per raw payload in order. -/
def runCycles (firstSyncProps : Option (List String)) (st : PipelineState)
    (raws : List Payload) : PipelineState :=
  raws.foldl (hookCycle firstSyncProps) st

/-- A JavaScript value as it can be returned by the caller-supplied
`useValue` stage: `jsObj` is an object-shaped payload, the rest are
`undefined`, `null` and the primitives. -/
inductive JSVal where
  | jsUndefined : JSVal
  | jsNull : JSVal
  | jsNum : Int → JSVal
  | jsStr : String → JSVal
  | jsBool : Bool → JSVal
  | jsObj : Payload → JSVal
  deriving DecidableEq, Repr

/-- JS truthiness of a `useValue` result (the `returned &&` guard). -/
def truthy : JSVal → Bool
  | JSVal.jsUndefined => false
  | JSVal.jsNull => false
  | JSVal.jsNum n => decide (n ≠ 0)
  | JSVal.jsStr s => decide (s ≠ "")
  | JSVal.jsBool b => b
  | JSVal.jsObj _ => true

/-- The `typeof returned === "object"` test (note `typeof null` is
`"object"` in JS). -/
def typeofObject : JSVal → Bool
  | JSVal.jsNull => true
  | JSVal.jsObj _ => true
  | _ => false

/-- View of a `useValue` result as a payload; only consulted after the
guards have established that the value is an object. -/
def asPayload : JSVal → Payload
  | JSVal.jsObj p => p
  | _ => []

/-- The mutable state of one `UseValueHook` instance together with its
store: `prevReturned` is `prevReturnedRef` (line 127, starts `null`),
`store` the zustand store contents, `mergeCount` the number of `$sync`
merge calls made by this sub-sync (line 143). -/
structure DerivedState where
  prevReturned : Option Payload
  store : Payload
  mergeCount : Nat
  deriving DecidableEq, Repr

/-- One evaluation cycle of `UseValueHook` (SyncStore.tsx lines 136-145)
given the value `returned` by the `useValue` stage: merge and record a new
baseline only when `returned` is truthy, object-typed, and judged changed
against the previous returned baseline. -/
def derivedCycle (st : DerivedState) (returned : JSVal) : DerivedState :=
  if truthy returned && typeofObject returned
      && shallowChanged st.prevReturned (asPayload returned) then
    { prevReturned := some (asPayload returned)
      store := mergePayload st.store (asPayload returned)
      mergeCount := st.mergeCount + 1 }
  else
    st

/-- `useStoreInternal` / `useStore` (SyncStore.tsx lines 62-95): reading
outside a provider context (`ctx = none`) throws `Missing StoreProvider`;
inside, the selector (the identity when the caller passes none) is applied
to the current internal state.  The consumer-facing `useStore` delegates
directly to `useStoreInternal` (line 94), so both are modelled by this one
function. -/
def useStoreRead {α : Type} (ctx : Option Payload) (selector : Payload → α) :
    Except String α :=
  match ctx with
  | none => Except.error "Missing StoreProvider"
  | some st => Except.ok (selector st)

/-- The deduplicated store initializer of `StoreProvider`
(SyncStore.tsx lines 215-220): `{...createState(set, get, api),
...syncProps, $sync}`.  `createStateResult` is the payload produced by the
optional initial-state factory (`{}` when the factory is absent, line 190),
`syncProps` the provider props minus `children`, `persist` and
`firstSyncProps`; the `$sync` closure is modelled by the dedicated value
`Value.vSync`. -/
def storeInit (createStateResult syncProps : Payload) : Payload :=
  mergePayload (mergePayload createStateResult syncProps)
    [("$sync", Value.vSync)]

/-- One render of `StoreProvider` (SyncStore.tsx lines 212-233): the store
is created only when `storeRef.current` is still unset, and the same handle
is used for the context value; returns the updated ref and the context
value. -/
def providerRender (storeRef : Option Payload)
    (createStateResult syncProps : Payload) : Option Payload × Payload :=
  match storeRef with
  | some s => (some s, s)
  | none =>
    let s := storeInit createStateResult syncProps
    (some s, s)

/-! ### Basic lookup lemmas -/

theorem lookup_nil (k : String) : lookup [] k = none := rfl

theorem lookup_cons (k0 : String) (v0 : Value) (tl : Payload) (k : String) :
    lookup ((k0, v0) :: tl) k =
      if (k0 == k) = true then some v0 else lookup tl k := by
  cases h : (k0 == k) <;> simp [lookup, List.find?_cons, h]

theorem lookup_eq_none_iff (p : Payload) (k : String) :
    lookup p k = none ↔ ¬ k ∈ keys p := by
  induction p with
  | nil => simp [lookup, keys]
  | cons hd tl ih =>
    obtain ⟨k0, v0⟩ := hd
    rw [lookup_cons]
    by_cases h : k0 = k
    · subst h
      simp [keys]
    · have h' : k ≠ k0 := Ne.symm h
      have hb : (k0 == k) = false := by simp [h]
      rw [hb]
      simp [keys, List.mem_cons, ih, h']

theorem mem_of_lookup_eq_some (p : Payload) (k : String) (v : Value)
    (h : lookup p k = some v) : (k, v) ∈ p := by
  rw [lookup] at h
  cases hf : p.find? (fun kv => kv.1 == k) with
  | none => rw [hf] at h; exact absurd h (by simp)
  | some kv =>
    rw [hf] at h
    have h2 : kv.2 = v := by simpa using h
    have hp := List.find?_some hf
    have h1 : kv.1 = k := by simpa using hp
    have hm := List.mem_of_find?_eq_some hf
    obtain ⟨a, b⟩ := kv
    cases h1
    cases h2
    exact hm

theorem lookup_eq_some_of_mem (p : Payload) (k : String) (v : Value)
    (hnd : (keys p).Nodup) (hm : (k, v) ∈ p) : lookup p k = some v := by
  induction p with
  | nil => cases hm
  | cons hd tl ih =>
    obtain ⟨k0, v0⟩ := hd
    rw [keys] at hnd
    simp only [List.map_cons, List.nodup_cons] at hnd
    rcases List.mem_cons.mp hm with h | h
    · cases h
      simp [lookup_cons]
    · have hne : k0 ≠ k := by
        intro e
        subst e
        exact hnd.1 (List.mem_map.mpr ⟨(k0, v), h, rfl⟩)
      have hb : (k0 == k) = false := by simp [hne]
      rw [lookup_cons, hb]
      simpa using ih hnd.2 h

theorem lookup_eq_of_perm (p1 p2 : Payload) (hnd : (keys p1).Nodup)
    (hperm : p2.Perm p1) (k : String) : lookup p2 k = lookup p1 k := by
  have hnd2 : (keys p2).Nodup := ((hperm.map Prod.fst).symm).nodup hnd
  cases h2 : lookup p2 k with
  | some v =>
    have hm : (k, v) ∈ p1 := hperm.mem_iff.mp (mem_of_lookup_eq_some _ _ _ h2)
    exact (lookup_eq_some_of_mem p1 k v hnd hm).symm
  | none =>
    have hn2 : ¬ k ∈ keys p2 := (lookup_eq_none_iff _ _).mp h2
    have h1 : ¬ k ∈ keys p1 := fun hmem =>
      hn2 ((hperm.map Prod.fst).mem_iff.mpr hmem)
    exact ((lookup_eq_none_iff _ _).mpr h1).symm


/-! ### Lookup through the spread merge -/

theorem lookup_append (a b : Payload) (k : String) :
    lookup (a ++ b) k =
      match lookup a k with
      | some v => some v
      | none => lookup b k := by
  cases h : a.find? (fun kv => kv.1 == k) <;>
    simp [lookup, List.find?_append, h, Option.or]

theorem lookup_overrideMap (a b : Payload) (k : String) :
    lookup (a.map fun kv =>
        match lookup b kv.1 with
        | some v => (kv.1, v)
        | none => kv) k
      = match lookup a k, lookup b k with
        | some _, some v => some v
        | some v, none => some v
        | none, _ => none := by
  induction a with
  | nil => simp [lookup]
  | cons hd tl ih =>
    obtain ⟨k0, v0⟩ := hd
    by_cases hk : k0 = k
    · subst hk
      cases hb : lookup b k0 <;>
        simp [List.map_cons, hb, lookup_cons]
    · have hb' : (k0 == k) = false := by simp [hk]
      cases hb : lookup b k0 <;>
        simp [List.map_cons, hb, lookup_cons, hb', ih]

theorem lookup_filterContains (a b : Payload) (k : String) :
    lookup (b.filter fun kv => !(keys a).contains kv.1) k
      = if k ∈ keys a then none else lookup b k := by
  simp only [List.contains, List.elem_eq_mem]
  induction b with
  | nil => by_cases hc : k ∈ keys a <;> simp [lookup, hc]
  | cons hd tl ih =>
    obtain ⟨k0, v0⟩ := hd
    by_cases hk : k0 = k
    · subst hk
      by_cases hc : k0 ∈ keys a <;>
        simp [List.filter_cons, hc, lookup_cons, ih]
    · have hb' : (k0 == k) = false := by simp [hk]
      by_cases hc : k0 ∈ keys a <;>
        simp [List.filter_cons, hc, lookup_cons, hb', ih]

theorem mem_keys_of_lookup (p : Payload) (k : String) (v : Value)
    (h : lookup p k = some v) : k ∈ keys p := by
  rw [keys]
  exact List.mem_map.mpr ⟨(k, v), mem_of_lookup_eq_some _ _ _ h, rfl⟩

theorem lookup_mergePayload (state props : Payload) (k : String) :
    lookup (mergePayload state props) k
      = match lookup props k with
        | some v => some v
        | none => lookup state k := by
  rw [mergePayload, lookup_append, lookup_overrideMap, lookup_filterContains]
  cases hs : lookup state k with
  | some v =>
    rw [if_pos (mem_keys_of_lookup state k v hs)]
    cases hp : lookup props k <;> simp
  | none =>
    rw [if_neg ((lookup_eq_none_iff state k).mp hs)]
    cases hp : lookup props k <;> simp

/-! ### The write-once delete loop -/

theorem deleteKeys_eq_filter (ws : List String) (p : Payload) :
    deleteKeys p ws = p.filter fun kv => !(ws.contains kv.1) := by
  induction ws generalizing p with
  | nil =>
    rw [deleteKeys]
    simp [List.filter_eq_self]
  | cons w ws ih =>
    rw [deleteKeys, List.foldl_cons, ← deleteKeys, ih, List.filter_filter]
    congr 1
    funext kv
    rw [List.contains_cons]
    cases hw : (kv.1 == w) <;> cases hc : ws.contains kv.1 <;> rfl

theorem lookup_deleteKeys_of_mem (p : Payload) (ws : List String) (k : String)
    (h : k ∈ ws) : lookup (deleteKeys p ws) k = none := by
  rw [deleteKeys_eq_filter, lookup_eq_none_iff]
  intro hmem
  rw [keys, List.mem_map] at hmem
  obtain ⟨kv, hkv, hfst⟩ := hmem
  have hq := (List.mem_filter.mp hkv).2
  rw [hfst] at hq
  have hw : ws.contains k = true := List.elem_iff.mpr h
  rw [hw] at hq
  cases hq

theorem deleteKeys_of_disjoint (p : Payload) (ws : List String)
    (h : ∀ k ∈ ws, ¬ k ∈ keys p) : deleteKeys p ws = p := by
  rw [deleteKeys_eq_filter, List.filter_eq_self]
  intro kv hkv
  have hm : ¬ kv.1 ∈ ws := fun hmem =>
    h kv.1 hmem (by rw [keys]; exact List.mem_map.mpr ⟨kv, hkv, rfl⟩)
  cases hc : ws.contains kv.1
  · rfl
  · exact absurd (List.elem_iff.mp hc) hm

/-! ### Reflexivity of the change detector -/

theorem entryChanged_self (v : Value) : entryChanged v v = false := by
  cases v <;> simp [entryChanged, isValidElement, valueIs]

theorem shallowChanged_self (p : Payload) : shallowChanged (some p) p = false := by
  simp only [shallowChanged]
  rw [if_neg (by simp)]
  rw [List.any_eq_false]
  intro x hx
  simp [entryChanged_self]

/-! ### Detector reduction on singleton payloads -/

theorem shallowChanged_singleton (k : String) (a b : Value) :
    shallowChanged (some [(k, a)]) [(k, b)] = entryChanged a b := by
  simp only [shallowChanged, keys, List.map_cons, List.map_nil]
  rw [if_neg (by simp)]
  simp [getVal, lookup_cons]

/-- Claim C5: for every payload P, the change detector applied to a null
previous baseline and P returns true, unconditionally. -/
theorem claim_C5_null_baseline_changed (p : Payload) :
    shallowChanged none p = true := rfl

/-- Claim C6: for all payloads P1 and P2 that contain the same key-to-value
mapping and differ only in the insertion order of their keys (modelled as:
P2 is a permutation of P1, and P1 has no duplicate keys, as a JS object
cannot have them), the change detector returns false. -/
theorem claim_C6_order_independence (p1 p2 : Payload)
    (hnd : (keys p1).Nodup) (hperm : p2.Perm p1) :
    shallowChanged (some p1) p2 = false := by
  simp only [shallowChanged]
  rw [if_neg]
  · rw [List.any_eq_false]
    intro k hk
    have hlk : lookup p2 k = lookup p1 k := lookup_eq_of_perm p1 p2 hnd hperm k
    have hgv : getVal p2 k = getVal p1 k := by rw [getVal, getVal, hlk]
    rw [hgv]
    simp [entryChanged_self]
  · have hlen : (keys p2).length = (keys p1).length := (hperm.map Prod.fst).length_eq
    simp [hlen]

/-- Witness for C6 on a concrete pair of reordered payloads. -/
theorem claim_C6_witness :
    shallowChanged (some [("a", Value.vNat 1), ("b", Value.vStr "x")])
      [("b", Value.vStr "x"), ("a", Value.vNat 1)] = false :=
  claim_C6_order_independence _ _ (by decide) (by decide)

/-- Claim C4: in the change detector, when either compared value is a
UI-renderable node, the two values compare equal (the detector reports
no change on a payload containing just that entry) if and only if both are
renderable nodes and their type identity and key identity both match; the
internal content of the nodes is ignored, and a node compared against a
non-node is always a mismatch. -/
theorem claim_C4_element_comparison (k : String) (a b : Value)
    (h : (isValidElement a || isValidElement b) = true) :
    shallowChanged (some [(k, a)]) [(k, b)] = false ↔
      ∃ t ky ca cb, a = Value.vElem t ky ca ∧ b = Value.vElem t ky cb := by
  rw [shallowChanged_singleton]
  cases a <;> cases b <;>
    simp [entryChanged, isValidElement, valueIs] at h ⊢
  all_goals aesop

/-- Witness for C4: two nodes with the same type and key but different
internal content compare as unchanged. -/
theorem claim_C4_witness :
    shallowChanged (some [("icon", Value.vElem 1 (some "ic") 7)])
      [("icon", Value.vElem 1 (some "ic") 8)] = false :=
  (claim_C4_element_comparison "icon" _ _ (by decide)).mpr
    ⟨1, some "ic", 7, 8, rfl, rfl⟩

/-- Claim C7: the write-once gate is pure (it returns the input payload
itself, or a filtered copy built without mutating the input): when the
synced flag is false, or the write-once list is unset, it returns the
payload with the same keys; when the synced flag is true with a write-once
list configured, it returns the payload with every key in the list removed
(keys absent from the input are simply absent from the result). -/
theorem claim_C7_write_once_gate :
    (∀ (fsp : Option (List String)) (p : Payload), filterFirstSync fsp false p = p)
    ∧ (∀ p : Payload, filterFirstSync none true p = p)
    ∧ (∀ (ws : List String) (p : Payload),
        filterFirstSync (some ws) true p = p.filter fun kv => !(ws.contains kv.1)) := by
  refine ⟨?_, ?_, ?_⟩
  · intro fsp p
    cases fsp <;> rfl
  · intro p
    rfl
  · intro ws p
    simp [filterFirstSync, deleteKeys_eq_filter]

/-! ### The direct-input sub-sync across cycles -/

theorem hookCycle_first (fsp : Option (List String)) (store0 raw : Payload) :
    hookCycle fsp (initPipeline store0) raw =
      { syncedProps := true
        prevProps := some raw
        store := mergePayload store0 raw
        mergeCount := 1 } := by
  have hfilter0 : filterFirstSync fsp false raw = raw := by
    cases fsp <;> rfl
  simp [hookCycle, initPipeline, hfilter0, shallowChanged]

theorem hookCycle_stable (fsp : Option (List String)) (raw : Payload)
    (st : PipelineState) (hs : st.syncedProps = true) (hp : st.prevProps = some raw)
    (hdisj : ∀ ws, fsp = some ws → ∀ k ∈ ws, ¬ k ∈ keys raw) :
    hookCycle fsp st raw = st := by
  have hfilter : filterFirstSync fsp st.syncedProps raw = raw := by
    cases fsp with
    | none => rfl
    | some ws =>
      rw [filterFirstSync, hs, if_pos rfl]
      exact deleteKeys_of_disjoint raw ws (hdisj ws rfl)
  rw [hookCycle]
  simp only [hfilter, hp, shallowChanged_self]
  simp

/-- Claim C2 (amended): for every store instance and every N >= 1, if the
host runs N consecutive evaluation cycles with the same unchanged raw input
payload, and no configured write-once field occurs among the payload's keys
(in particular whenever no write-once list is configured), the direct-input
sub-sync performs exactly one merge call into the store, on the first of
those cycles.  (When a configured write-once field does occur in the
payload, the second cycle filters it out, the key count changes, and a
second merge fires; see the counterexample.) -/
theorem claim_C2_idempotent_merges (fsp : Option (List String))
    (raw store0 : Payload) (n : Nat) (hn : 1 ≤ n)
    (hdisj : ∀ ws, fsp = some ws → ∀ k ∈ ws, ¬ k ∈ keys raw) :
    (runCycles fsp (initPipeline store0) (List.replicate n raw)).mergeCount = 1 := by
  obtain ⟨m, rfl⟩ : ∃ m, n = m + 1 := ⟨n - 1, (Nat.succ_pred_eq_of_pos hn).symm⟩
  have hsteady : ∀ (m : Nat) (st : PipelineState), st.syncedProps = true →
      st.prevProps = some raw →
      runCycles fsp st (List.replicate m raw) = st := by
    intro m
    induction m with
    | zero => intro st _ _; rfl
    | succ m ih =>
      intro st hs hp
      rw [List.replicate_succ, runCycles, List.foldl_cons, ← runCycles,
        hookCycle_stable fsp raw st hs hp hdisj]
      exact ih st hs hp
  rw [List.replicate_succ, runCycles, List.foldl_cons, ← runCycles,
    hookCycle_first fsp store0 raw, hsteady m _ rfl rfl]

/-- Witness for C2 (amended): three cycles with the same payload, none of
whose keys is write-once, merge exactly once. -/
theorem claim_C2_witness :
    (runCycles (some ["seed"]) (initPipeline [])
      (List.replicate 3 [("label", Value.vStr "x")])).mergeCount = 1 :=
  claim_C2_idempotent_merges (some ["seed"]) [("label", Value.vStr "x")] [] 3
    (by decide)
    (by
      intro ws h k hk
      injection h with h2
      subst h2
      simp only [List.mem_singleton] at hk
      subst hk
      decide)

/-- Counterexample to C2 as stated: with write-once field `seed` configured
and the identical payload `{seed: 5}` supplied on two consecutive cycles,
the engine performs two merge calls, not one — on cycle 2 the gate removes
`seed`, the key count differs from the baseline, and the detector fires a
second merge. -/
theorem claim_C2_counterexample :
    (runCycles (some ["seed"]) (initPipeline [])
      (List.replicate 2 [("seed", Value.vNat 5)])).mergeCount = 2 ∧
    ¬ (runCycles (some ["seed"]) (initPipeline [])
      (List.replicate 2 [("seed", Value.vNat 5)])).mergeCount = 1 :=
  ⟨by decide, by decide⟩

theorem hookCycle_synced_after_first (ws : List String) (store0 raw1 : Payload) :
    (hookCycle (some ws) (initPipeline store0) raw1).syncedProps = true := by
  rw [hookCycle_first]

theorem hookCycle_preserves_write_once (ws : List String) (k : String)
    (hk : k ∈ ws) (st : PipelineState) (raw : Payload)
    (hs : st.syncedProps = true) :
    lookup ((hookCycle (some ws) st raw).store) k = lookup st.store k
    ∧ (hookCycle (some ws) st raw).syncedProps = true := by
  rw [hookCycle]
  have hfilter : filterFirstSync (some ws) st.syncedProps raw = deleteKeys raw ws := by
    rw [filterFirstSync, hs, if_pos rfl]
  simp only [hfilter]
  split
  · refine ⟨?_, rfl⟩
    rw [lookup_mergePayload, lookup_deleteKeys_of_mem raw ws k hk]
  · exact ⟨rfl, hs⟩

/-- Claim C3: for a single store instance with a configured write-once
field set, once a write-once field has been excluded from a merge (that is,
from the second cycle on), no later cycle re-introduces it into the store,
even if the raw input value for that field changes: after the first cycle,
the store's value at any write-once key is never modified again. -/
theorem claim_C3_write_once_monotone (ws : List String) (k : String)
    (hk : k ∈ ws) (store0 raw1 : Payload) (raws : List Payload) :
    lookup ((runCycles (some ws)
        (hookCycle (some ws) (initPipeline store0) raw1) raws).store) k
      = lookup ((hookCycle (some ws) (initPipeline store0) raw1).store) k := by
  have hfold : ∀ (raws : List Payload) (st : PipelineState),
      st.syncedProps = true →
      lookup ((runCycles (some ws) st raws).store) k = lookup st.store k := by
    intro raws
    induction raws with
    | nil => intro st _; rfl
    | cons r rs ih =>
      intro st hs
      obtain ⟨hlook, hsync⟩ := hookCycle_preserves_write_once ws k hk st r hs
      rw [runCycles, List.foldl_cons, ← runCycles, ih _ hsync, hlook]
  exact hfold raws _ (hookCycle_synced_after_first ws store0 raw1)

/-- Witness for C3, the end-to-end scenario B of the spec: write-once field
`seed` is 5 on cycle 1 and 99 on cycle 2; after cycle 2 the store's `seed`
remains 5. -/
theorem claim_C3_witness :
    lookup ((runCycles (some ["seed"])
        (hookCycle (some ["seed"]) (initPipeline []) [("seed", Value.vNat 5)])
        [[("seed", Value.vNat 99)]]).store) "seed" = some (Value.vNat 5) := by
  rw [claim_C3_write_once_monotone ["seed"] "seed" (by decide) []
    [("seed", Value.vNat 5)] [[("seed", Value.vNat 99)]]]
  decide

/-! ### Derived-value sub-sync, read access, and store creation -/

/-- Claim C8: in the derived-value sub-sync, if the `useValue` stage returns
a value that is not an object-shaped payload (undefined, null, or a
primitive), the cycle performs no merge and no derived-baseline update, and
no error is raised: the state is returned untouched (the modelled cycle is
a total function, mirroring the code path, which cannot throw and logs
nothing). -/
theorem claim_C8_non_object_skipped (st : DerivedState) (returned : JSVal)
    (h : ∀ p, returned ≠ JSVal.jsObj p) :
    derivedCycle st returned = st := by
  cases returned
  case jsObj p => exact absurd rfl (h p)
  all_goals simp [derivedCycle, truthy, typeofObject]

/-- Witness for C8: an undefined return leaves a fresh derived state
untouched. -/
theorem claim_C8_witness :
    derivedCycle { prevReturned := none, store := [], mergeCount := 0 }
        JSVal.jsUndefined
      = { prevReturned := none, store := [], mergeCount := 0 } :=
  claim_C8_non_object_skipped _ _ (fun _ h => JSVal.noConfusion h)

/-- Claim C9: invoking the read-access entry point outside any provider
scope yields the missing-context error `Missing StoreProvider`, and inside
a provider scope the same call always succeeds and returns the selected
current state (the identity selection returns the whole state); the read
path has no other error outcome. -/
theorem claim_C9_missing_context_error :
    (∀ (α : Type) (sel : Payload → α),
        useStoreRead none sel = Except.error "Missing StoreProvider")
    ∧ (∀ (α : Type) (sel : Payload → α) (st : Payload),
        useStoreRead (some st) sel = Except.ok (sel st)) :=
  ⟨fun _ _ => rfl, fun _ _ _ => rfl⟩

theorem lookup_storeInit_sync (cs sp : Payload) :
    lookup (storeInit cs sp) "$sync" = some Value.vSync := by
  rw [storeInit, lookup_mergePayload]
  simp [lookup_cons]

theorem lookup_storeInit_app (cs sp : Payload) (k : String)
    (hk : k ≠ "$sync") :
    lookup (storeInit cs sp) k =
      match lookup sp k with
      | some v => some v
      | none => lookup cs k := by
  have hsync : lookup [("$sync", Value.vSync)] k = none := by
    have hb : ("$sync" == k) = false := by simp [Ne.symm hk]
    rw [lookup_cons, hb]
    simp [lookup]
  rw [storeInit, lookup_mergePayload, hsync, lookup_mergePayload]

/-- Claim C10: at store creation, before any evaluation cycle or merge has
run, the store's state already equals the initial-factory fields overlaid
with the provider's current prop fields plus the internal merge entry
point `$sync`: prop values are readable from the store before the first
direct-input sub-sync merges them, and once the store handle exists a
provider re-render never recreates it, whatever props it now receives. -/
theorem claim_C10_initial_state :
    (∀ cs sp : Payload, providerRender none cs sp
        = (some (storeInit cs sp), storeInit cs sp))
    ∧ (∀ cs sp : Payload, lookup (storeInit cs sp) "$sync" = some Value.vSync)
    ∧ (∀ (cs sp : Payload) (k : String), k ≠ "$sync" →
        lookup (storeInit cs sp) k =
          match lookup sp k with
          | some v => some v
          | none => lookup cs k)
    ∧ (∀ (s cs sp : Payload), providerRender (some s) cs sp = (some s, s)) :=
  ⟨fun _ _ => rfl, lookup_storeInit_sync, lookup_storeInit_app,
    fun _ _ _ => rfl⟩

/-- Witness for C10: a prop field is readable from a freshly created store
before any sync cycle has run. -/
theorem claim_C10_witness :
    lookup (storeInit [("count", Value.vNat 0)] [("label", Value.vStr "x")])
        "label" = some (Value.vStr "x") := by
  have h := claim_C10_initial_state.2.2.1 [("count", Value.vNat 0)]
    [("label", Value.vStr "x")] "label" (by decide)
  simpa using h

/-- Counterexample to C1 as stated: on a concrete store instance, the
consumer-facing read entry point called with the identity selection returns
the full internal state, whose enumerable shape does contain the internal
merge entry point `$sync`. -/
theorem claim_C1_counterexample :
    useStoreRead (some (storeInit [("count", Value.vNat 0)]
        [("label", Value.vStr "x")])) id
      = Except.ok (storeInit [("count", Value.vNat 0)]
        [("label", Value.vStr "x")])
    ∧ "$sync" ∈ keys (storeInit [("count", Value.vNat 0)]
        [("label", Value.vStr "x")]) :=
  ⟨rfl, by decide⟩

/-- Claim C1 (amended): the consumer-facing read entry point omits the
internal merge entry point only from its static (compile-time) type; at
runtime, `useStore` with no selector (or the identity selection) returns
the full internal state object, whose enumerable shape does include the
`$sync` merge entry point alongside the application fields. -/
theorem claim_C1_sync_exposed_at_runtime (cs sp : Payload) :
    useStoreRead (some (storeInit cs sp)) id = Except.ok (storeInit cs sp)
    ∧ lookup (storeInit cs sp) "$sync" = some Value.vSync :=
  ⟨rfl, lookup_storeInit_sync cs sp⟩
